import Mathlib

/-!
Verification of the core recommendation pipeline of the NewsReccomendation
backend (`src/backend/main.py`).

The pipeline there is one FastAPI handler `recommend`.  This file embeds its
pure stages:

* `clean_hashtag`  — the text normalizer (`clean_hashtag` in the source);
* `pyStrip`        — Python's `str.strip()` (ASCII whitespace);
* hashtag extraction from the uploaded JSON document, with Python `dict.get`
  defaulting and Python truthiness modelled explicitly (`extractTexts`);
* the query-token filter (stoplist, minimum length, `dict.fromkeys`
  deduplication, cap of 5) — `filterTags`;
* query building (`" OR "` join, `urllib.parse.quote_plus`, fallback to the
  top-headlines endpoint) — `buildQuery`, `retrievalMode`;
* the profile builder (`model.encode(...).mean(axis=0)`), with the sentence
  embedding model treated as an abstract collaborator returning rational
  vectors — `buildProfile`;
* the ranking stage (`dropna` on title/description, scoring, descending
  `sort_values`) — `rankArticles`, with the composite embed-then-cosine
  scoring treated as an abstract collaborator `scoreOf : String → ℚ`.

Unicode caveat: Python's `str.lower()` is a full Unicode case map while
`Char.toLower` below is the ASCII case map.  The two differ only on
characters that the subsequent `[^a-z0-9]` strip removes in both models
(apart from exotic code points such as U+212A whose lower case is ASCII);
none of the properties verified here depend on that difference.
-/

/-- Python ASCII whitespace, the set removed by `str.strip()`. -/
def pySpace (c : Char) : Bool :=
  c = ' ' || c = '\t' || c = '\n' || c = '\r' || c = '\x0b' || c = '\x0c'

/-- Python `s.strip()`: remove leading and trailing whitespace. -/
def pyStrip (s : String) : String :=
  String.mk (((s.data.dropWhile pySpace).reverse.dropWhile pySpace).reverse)

/-- Characters kept by the normalizer's character class `[a-z0-9]`. -/
def isLowerAlnum (c : Char) : Bool :=
  ('a' ≤ c && c ≤ 'z') || ('0' ≤ c && c ≤ '9')

/-- Embedding of `clean_hashtag` from `src/backend/main.py`: lowercase, then
delete every character outside `[a-z0-9]` (the regex `[^a-z0-9]+` → `""`). -/
def clean_hashtag (name : String) : String :=
  String.mk ((name.data.map Char.toLower).filter isLowerAlnum)

/-- Embedding of the `stop_tags` set from `src/backend/main.py`. -/
def stop_tags : List String :=
  ["fyp", "foryou", "trending", "viral", "funny", "explore",
   "tiktok", "tiktokdance", "xyzbca"]

/-- Helper for `pyDedup`: drop elements already seen. -/
def pyDedupAux (seen : List String) : List String → List String
  | [] => []
  | x :: xs => if x ∈ seen then pyDedupAux seen xs else x :: pyDedupAux (x :: seen) xs

/-- Embedding of `list(dict.fromkeys(...))`: deduplicate keeping the first
occurrence of each element, in order. -/
def pyDedup (l : List String) : List String :=
  pyDedupAux [] l

/-- Embedding of the query-token filtering loop of `recommend` (steps over
`raw_tags`): normalize, drop empty results, drop stoplist members, drop
tokens shorter than 3 characters, then deduplicate and keep at most 5. -/
def filterTags (raw_tags : List String) : List String :=
  (pyDedup (raw_tags.filterMap fun t =>
    let ct := clean_hashtag t
    if ct = "" then none
    else if ct ∈ stop_tags then none
    else if ct.length < 3 then none
    else some ct)).take 5

/-- JSON values, the result of `json.loads` on the uploaded file. -/
inductive JVal where
  | null : JVal
  | bool : Bool → JVal
  | num : ℚ → JVal
  | str : String → JVal
  | arr : List JVal → JVal
  | obj : List (String × JVal) → JVal

/-- Errors a request can end in: an `HTTPException` raised by a validation
gate, or an exception (AttributeError/TypeError) escaping the handler. -/
inductive PipelineError where
  | http : Nat → String → PipelineError
  | uncaught : String → PipelineError
deriving DecidableEq

/-- Python truthiness of a JSON value (`if not x`). -/
def pyTruthy : JVal → Bool
  | .null => false
  | .bool b => b
  | .num q => q ≠ 0
  | .str s => s ≠ ""
  | .arr xs => !xs.isEmpty
  | .obj kvs => !kvs.isEmpty

/-- Python `x.get(k, dflt)`: succeeds only on a dict; anything else raises
`AttributeError` (dicts from `json.loads` have unique keys). -/
def pyGet (v : JVal) (k : String) (dflt : JVal) : Except PipelineError JVal :=
  match v with
  | .obj kvs => .ok ((kvs.lookup k).getD dflt)
  | _ => .error (.uncaught "AttributeError: get")

/-- Python `for h in x`: arrays yield elements, strings yield one-character
strings, dicts yield their keys; other values raise `TypeError`. -/
def pyIter : JVal → Except PipelineError (List JVal)
  | .arr xs => .ok xs
  | .str s => .ok (s.data.map fun c => .str (String.singleton c))
  | .obj kvs => .ok (kvs.map fun kv => .str kv.1)
  | _ => .error (.uncaught "TypeError: not iterable")

/-- Embedding of the nested lookup in `recommend`:
`raw.get("Your Activity", {}).get("Hashtag", {}).get("HashtagList", [])`. -/
def extractHashtagList (raw : JVal) : Except PipelineError JVal := do
  let a ← pyGet raw "Your Activity" (.obj [])
  let h ← pyGet a "Hashtag" (.obj [])
  pyGet h "HashtagList" (.arr [])

/-- One step of the comprehension
`[h.get("HashtagName", "").strip() for h in hashtag_list if h.get("HashtagName")]`:
`none` when the filter clause rejects `h`, `some` with the stripped name
otherwise; non-dict elements and non-string truthy names raise. -/
def stripTag (h : JVal) : Except PipelineError (Option String) :=
  match h with
  | .obj kvs =>
    let v := (kvs.lookup "HashtagName").getD .null
    if pyTruthy v then
      match v with
      | .str s => .ok (some (pyStrip s))
      | _ => .error (.uncaught "AttributeError: strip")
    else .ok none
  | _ => .error (.uncaught "AttributeError: get")

/-- The whole comprehension building `raw_tags`, left to right. -/
def extractRawTags : List JVal → Except PipelineError (List String)
  | [] => .ok []
  | h :: t => do
    let o ← stripTag h
    let rest ← extractRawTags t
    pure (match o with | some s => s :: rest | none => rest)

/-- Embedding of the input stages of `recommend`, from the parsed upload to
the `texts` fed to the embedding model (`texts = raw_tags` in the source).
`none` stands for a body `json.loads` rejects. -/
def extractTexts (input : Option JVal) : Except PipelineError (List String) :=
  match input with
  | none => .error (.http 400 "Invalid JSON file")
  | some raw => do
    let hl ← extractHashtagList raw
    if pyTruthy hl then do
      let hs ← pyIter hl
      let raw_tags ← extractRawTags hs
      if raw_tags = [] then .error (.http 400 "No usable hashtag texts detected")
      else .ok raw_tags
    else .error (.http 400 "No hashtags found in TikTok file")

/-- Hexadecimal digits used by percent-encoding (upper case, as in
`urllib.parse.quote`). -/
def hexDigit (n : Nat) : Char :=
  (["0123456789ABCDEF".data.getD n '0']).headD '0'

/-- Percent-encode one byte. -/
def percentByte (b : Nat) : List Char :=
  ['%', hexDigit (b / 16 % 16), hexDigit (b % 16)]

/-- Characters `urllib.parse.quote_plus` leaves unescaped (default `safe`). -/
def quoteSafe (c : Char) : Bool :=
  ('a' ≤ c && c ≤ 'z') || ('A' ≤ c && c ≤ 'Z') || ('0' ≤ c && c ≤ '9') ||
  c = '_' || c = '.' || c = '-' || c = '~'

/-- Embedding of `urllib.parse.quote_plus`: spaces become `+`, unreserved
characters pass through, everything else is percent-encoded byte-wise
(UTF-8). -/
def quote_plus (s : String) : String :=
  String.mk (s.data.flatMap fun c =>
    if c = ' ' then ['+']
    else if quoteSafe c then [c]
    else ((String.singleton c).toUTF8.toList.flatMap fun b => percentByte b.toNat))

/-- Embedding of the query construction in `recommend`:
`" OR ".join(cleaned_tags)` when any tokens survived, else `""`. -/
def buildQuery (cleaned_tags : List String) : String :=
  if cleaned_tags = [] then "" else String.intercalate " OR " cleaned_tags

/-- The two retrieval modes of the pipeline. -/
inductive Query where
  | search : String → Query
  | fallback : Query
deriving DecidableEq

/-- Embedding of the `if query:` branch of `recommend`: a non-empty query is
URL-encoded with `quote_plus` and sent to the keyword-search endpoint, an
empty one selects the generic top-headlines endpoint. -/
def retrievalMode (query : String) : Query :=
  if query = "" then .fallback else .search (quote_plus query)

/-- The request URL, as built in `recommend` for each retrieval mode. -/
def requestUrl (query : String) (apiKey : String) : String :=
  if query = "" then
    "https://newsapi.org/v2/top-headlines?language=en&pageSize=100&page=1&apiKey=" ++ apiKey
  else
    "https://newsapi.org/v2/everything?q=" ++ quote_plus query ++
      "&language=en&pageSize=100&page=1&apiKey=" ++ apiKey

/-- A retrieved article row, with the three fields the pipeline reads.
`none` models a field that is absent or JSON `null` (both become missing
values in `pd.DataFrame(articles)`). -/
structure Article where
  title : Option String
  description : Option String
  url : Option String
deriving DecidableEq, Repr

/-- Embedding of `df.dropna(subset=["title", "description"])`: keep a row
exactly when both fields are present and non-null. -/
def keepArticle (a : Article) : Bool :=
  a.title.isSome && a.description.isSome

/-- A ranked output record: the columns `title`, `description`, `url`,
`score` selected at the end of `recommend`.  Scores live in `ℚ`; the
embed-then-cosine computation that produces them is the abstract
collaborator `scoreOf` below. -/
structure Scored where
  title : String
  description : String
  url : Option String
  score : ℚ
deriving DecidableEq, Repr

/-- Embedding of `df["title"] + " " + df["description"]`. -/
def combinedText (t d : String) : String :=
  t ++ " " ++ d

/-- Scoring one surviving row: build the combined text and attach the
collaborator's similarity score.  Returns `none` on rows `dropna` removed
(those never reach this point). -/
def scoreRow (scoreOf : String → ℚ) (a : Article) : Option Scored :=
  match a.title, a.description with
  | some t, some d => some ⟨t, d, a.url, scoreOf (combinedText t d)⟩
  | _, _ => none

/-- Comparison used for sorting by the `score` column. -/
def leScore (a b : Scored) : Bool :=
  a.score ≤ b.score

/-- Embedding of `df.sort_values("score", ascending=False)`.  Pandas obtains
the descending order by reversing an ascending argsort of the reversed
column; the tie order of its default `kind="quicksort"` is
algorithm-specific, so the argsort is modelled here by `mergeSort`.  Every
property proved below about this function uses only that the result is a
permutation sorted non-increasingly by score, which holds for every argsort
kind. -/
def sortDesc (rows : List Scored) : List Scored :=
  (rows.mergeSort leScore).reverse

/-- Embedding of the ranking stage of `recommend` (steps 4–6 after the HTTP
response is parsed): validate the batch, drop rows without title or
description, validate again, score, and sort descending. -/
def rankArticles (scoreOf : String → ℚ) (articles : List Article) :
    Except PipelineError (List Scored) :=
  if articles.isEmpty then .error (.http 500 "No news articles returned")
  else
    let df := articles.filter keepArticle
    if df.isEmpty then .error (.http 500 "No usable news articles returned")
    else .ok (sortDesc (df.filterMap (scoreRow scoreOf)))

/-- Elementwise sum of two vectors (`numpy` broadcasting never arises: all
rows of one `model.encode` result have the model dimension). -/
def vadd (a b : List ℚ) : List ℚ :=
  List.zipWith (· + ·) a b

/-- Sum of the rows of a matrix, as `ndarray.sum(axis=0)` computes it on a
non-empty stack of equal-length rows. -/
def vsumRows : List (List ℚ) → List ℚ
  | [] => []
  | [v] => v
  | v :: rest => vadd v (vsumRows rest)

/-- Embedding of `hashtag_embs.mean(axis=0)`: sum the rows and divide by
the row count. -/
def meanRows (embs : List (List ℚ)) : List ℚ :=
  (vsumRows embs).map (· / (embs.length : ℚ))

/-- Embedding of `model.encode(texts, ...)` followed by `.mean(axis=0)` in
`recommend`, with the sentence-embedding model abstracted to a function
returning one rational vector per input text. -/
def buildProfile (embed : List String → List (List ℚ)) (texts : List String) : List ℚ :=
  meanRows (embed texts)

/-! ### Properties of the normalizer -/

/-- Characters in `[a-z0-9]` are fixed points of `Char.toLower`. -/
theorem toLower_of_isLowerAlnum {c : Char} (h : isLowerAlnum c = true) :
    Char.toLower c = c := by
  unfold isLowerAlnum at h
  simp only [Bool.or_eq_true, Bool.and_eq_true, decide_eq_true_eq] at h
  unfold Char.toLower
  have hn : ¬(Char.toNat c ≥ 65 ∧ Char.toNat c ≤ 90) := by
    have ha : (Char.val 'a').toBitVec.toNat = 97 := rfl
    have hz : (Char.val 'z').toBitVec.toNat = 122 := rfl
    have h0 : (Char.val '0').toBitVec.toNat = 48 := rfl
    have h9 : (Char.val '9').toBitVec.toNat = 57 := rfl
    rcases h with ⟨h1, h2⟩ | ⟨h1, h2⟩ <;>
    · rw [Char.le_def, UInt32.le_def, BitVec.le_def] at h1 h2
      simp only [Char.toNat, UInt32.toNat] at *
      omega
  simp [hn]

/-- Every character of a normalized hashtag is a lowercase letter or digit. -/
theorem mem_clean_hashtag {s : String} {c : Char} (hc : c ∈ (clean_hashtag s).data) :
    isLowerAlnum c = true :=
  (List.mem_filter.mp hc).2

/-- The normalizer fixes strings made only of lowercase letters and digits. -/
theorem clean_hashtag_fixed {s : String}
    (h : ∀ c ∈ s.data, isLowerAlnum c = true) : clean_hashtag s = s := by
  unfold clean_hashtag
  have hmap : s.data.map Char.toLower = s.data :=
    (List.map_congr_left fun c hc => toLower_of_isLowerAlnum (h c hc)).trans s.data.map_id
  rw [hmap, List.filter_eq_self.mpr h]

/-- C7: the normalizer `clean_hashtag` is a total pure function (it is a
Lean function, defined on every string including the empty and non-ASCII
ones) and idempotent, and its output consists only of lowercase ASCII
letters and digits. -/
theorem C7_clean_hashtag_idempotent (s : String) :
    clean_hashtag (clean_hashtag s) = clean_hashtag s ∧
    ∀ c ∈ (clean_hashtag s).data, isLowerAlnum c = true :=
  ⟨clean_hashtag_fixed fun _ hc => mem_clean_hashtag hc, fun _ hc => mem_clean_hashtag hc⟩

/-- Witness for C7 at a concrete mixed-case, non-alphanumeric input. -/
theorem C7_witness :
    clean_hashtag (clean_hashtag "Tech-News 2024!") = clean_hashtag "Tech-News 2024!" ∧
    isLowerAlnum 't' = true :=
  ⟨(C7_clean_hashtag_idempotent "Tech-News 2024!").1,
    (C7_clean_hashtag_idempotent "Tech-News 2024!").2 't' (by decide)⟩

/-! ### Properties of the hashtag filter -/

/-- Elements surviving `pyDedupAux` come from the input and were not seen. -/
theorem mem_pyDedupAux {x : String} :
    ∀ {seen l}, x ∈ pyDedupAux seen l → x ∈ l ∧ x ∉ seen := by
  intro seen l
  induction l generalizing seen with
  | nil => intro h; cases h
  | cons a t ih =>
    intro h
    by_cases ha : a ∈ seen
    · simp only [pyDedupAux, if_pos ha] at h
      obtain ⟨h1, h2⟩ := ih h
      exact ⟨List.mem_cons_of_mem _ h1, h2⟩
    · simp only [pyDedupAux, if_neg ha] at h
      rcases List.mem_cons.mp h with rfl | h'
      · exact ⟨List.mem_cons_self _ _, ha⟩
      · obtain ⟨h1, h2⟩ := ih h'
        exact ⟨List.mem_cons_of_mem _ h1, fun hx => h2 (List.mem_cons_of_mem _ hx)⟩

/-- The deduplication pass never produces a duplicate. -/
theorem nodup_pyDedupAux : ∀ (seen l : List String), (pyDedupAux seen l).Nodup := by
  intro seen l
  induction l generalizing seen with
  | nil => exact List.nodup_nil
  | cons a t ih =>
    by_cases ha : a ∈ seen
    · simpa only [pyDedupAux, if_pos ha] using ih seen
    · simp only [pyDedupAux, if_neg ha]
      exact List.nodup_cons.mpr
        ⟨fun hmem => (mem_pyDedupAux hmem).2 (List.mem_cons_self a seen), ih _⟩

/-- Specialization of `nodup_pyDedupAux` to `list(dict.fromkeys(...))`. -/
theorem pyDedup_nodup (l : List String) : (pyDedup l).Nodup :=
  nodup_pyDedupAux [] l

/-- Deduplication only keeps elements of the input. -/
theorem mem_pyDedup {x : String} {l : List String} (h : x ∈ pyDedup l) : x ∈ l :=
  (mem_pyDedupAux h).1

/-- Every surviving query token is at least 3 characters long and not in
the stoplist. -/
theorem filterTags_mem_props {t : String} {raw_tags : List String}
    (ht : t ∈ filterTags raw_tags) : 3 ≤ t.length ∧ t ∉ stop_tags := by
  unfold filterTags at ht
  have ht2 := mem_pyDedup ((List.take_sublist 5 _).subset ht)
  obtain ⟨a, _, heq⟩ := List.mem_filterMap.mp ht2
  dsimp only at heq
  split at heq
  · cases heq
  · split at heq
    · cases heq
    · split at heq
      · cases heq
      · rename_i hstop hlen
        cases heq
        exact ⟨by omega, hstop⟩

/-- C4: for every sequence of raw hashtag names, the filtered query-token
sequence has no duplicates (first occurrence kept by `pyDedup`), has length
at most 5, contains no token shorter than 3 characters, and contains no
token from the stoplist `stop_tags`. -/
theorem C4_filterTags_props (raw_tags : List String) :
    (filterTags raw_tags).Nodup ∧
    (filterTags raw_tags).length ≤ 5 ∧
    ∀ t ∈ filterTags raw_tags, 3 ≤ t.length ∧ t ∉ stop_tags := by
  refine ⟨?_, ?_, fun t ht => filterTags_mem_props ht⟩
  · exact (List.take_sublist 5 _).nodup (pyDedup_nodup _)
  · exact List.length_take_le _ _

/-- Witness for C4: on a concrete upload mixing a stoplist tag, a too-short
tag, a tag needing normalization and a duplicate, the surviving token obeys
the filter's guarantees. -/
theorem C4_witness : 3 ≤ ("technology" : String).length ∧ ("technology" : String) ∉ stop_tags :=
  (C4_filterTags_props ["fyp", "ai", "Technology!!", "technology"]).2.2 "technology" (by decide)

/-! ### Properties of the query builder -/

/-- The accumulator only grows while `String.intercalate` folds the list. -/
theorem intercalate_go_length (s : String) :
    ∀ (l : List String) (acc : String),
      acc.length ≤ (String.intercalate.go acc s l).length := by
  intro l
  induction l with
  | nil => intro acc; exact le_refl _
  | cons a t ih =>
    intro acc
    have h := ih (acc ++ s ++ a)
    simp only [String.intercalate.go]
    have h2 : acc.length ≤ (acc ++ s ++ a).length := by
      simp only [String.length_append]; omega
    omega

/-- Joining a list headed by a non-empty string is non-empty. -/
theorem intercalate_ne_empty {a : String} (ha : a ≠ "") (s : String) (l : List String) :
    String.intercalate s (a :: l) ≠ "" := by
  intro hcontra
  have h1 : 0 < a.length := by
    rcases a with ⟨d⟩
    cases d with
    | nil => exact absurd rfl ha
    | cons c cs => exact Nat.succ_pos cs.length
  have h2 := intercalate_go_length s l a
  rw [show String.intercalate s (a :: l) = String.intercalate.go a s l from rfl] at hcontra
  rw [hcontra] at h2
  have h3 : ("" : String).length = 0 := rfl
  omega

/-- C6: for every filtered-token sequence produced by `filterTags`, the query
builder joins the tokens with `" OR "` and the retrieval step URL-encodes it
with `quote_plus` and performs a keyword search when the sequence is
non-empty; when the sequence is empty the query is the empty string and the
retrieval step falls back to the generic top-headlines mode — in neither
case is an error produced. -/
theorem C6_buildQuery_modes (raw_tags : List String) :
    (filterTags raw_tags ≠ [] →
      buildQuery (filterTags raw_tags) = String.intercalate " OR " (filterTags raw_tags) ∧
      retrievalMode (buildQuery (filterTags raw_tags)) =
        Query.search (quote_plus (String.intercalate " OR " (filterTags raw_tags)))) ∧
    (filterTags raw_tags = [] →
      buildQuery (filterTags raw_tags) = "" ∧
      retrievalMode (buildQuery (filterTags raw_tags)) = Query.fallback) := by
  constructor
  · intro hne
    have hq : buildQuery (filterTags raw_tags) =
        String.intercalate " OR " (filterTags raw_tags) := by
      unfold buildQuery
      rw [if_neg hne]
    refine ⟨hq, ?_⟩
    rw [hq]
    obtain ⟨a, l, hal⟩ := List.exists_cons_of_ne_nil hne
    have ha : a ≠ "" := by
      have hmem : a ∈ filterTags raw_tags := by
        rw [hal]; exact List.mem_cons_self _ _
      have h3 := (filterTags_mem_props hmem).1
      intro hae
      rw [hae] at h3
      have h0 : ("" : String).length = 0 := rfl
      omega
    rw [hal]
    unfold retrievalMode
    rw [if_neg (intercalate_ne_empty ha _ _)]
  · intro he
    rw [he]
    exact ⟨rfl, rfl⟩

/-- Witness for C6: two surviving tokens produce an OR keyword search. -/
theorem C6_witness :
    buildQuery (filterTags ["technology", "coding"]) =
      String.intercalate " OR " (filterTags ["technology", "coding"]) ∧
    retrievalMode (buildQuery (filterTags ["technology", "coding"])) =
      Query.search (quote_plus (String.intercalate " OR " (filterTags ["technology", "coding"]))) :=
  (C6_buildQuery_modes ["technology", "coding"]).1 (by decide)

/-! ### Properties of the profile builder -/

/-- Elementwise addition preserves the common dimension. -/
theorem vadd_length {a b : List ℚ} {d : Nat} (ha : a.length = d) (hb : b.length = d) :
    (vadd a b).length = d := by
  simp [vadd, ha, hb]

/-- Coordinates of an elementwise sum. -/
theorem vadd_getD {a b : List ℚ} {d i : Nat} (ha : a.length = d) (hb : b.length = d)
    (hi : i < d) : (vadd a b).getD i 0 = a.getD i 0 + b.getD i 0 := by
  have hl : (vadd a b).length = d := vadd_length ha hb
  rw [List.getD_eq_getElem _ _ (by omega), List.getD_eq_getElem _ _ (by omega),
    List.getD_eq_getElem _ _ (by omega)]
  simp [vadd]

/-- The row-sum of a non-empty rectangular matrix has the row dimension and
computes, in each coordinate, the sum of that coordinate over the rows. -/
theorem vsumRows_spec {d : Nat} :
    ∀ {embs : List (List ℚ)}, embs ≠ [] → (∀ v ∈ embs, v.length = d) →
      (vsumRows embs).length = d ∧
      ∀ i, i < d → (vsumRows embs).getD i 0 = (embs.map (fun v => v.getD i 0)).sum := by
  intro embs
  induction embs with
  | nil => intro h; exact absurd rfl h
  | cons v rest ih =>
    intro _ hlen
    cases rest with
    | nil =>
      refine ⟨hlen v (List.mem_cons_self _ _), ?_⟩
      intro i hi
      simp [vsumRows]
    | cons w rest2 =>
      obtain ⟨hl, hs⟩ := ih (by simp) (fun u hu => hlen u (List.mem_cons_of_mem _ hu))
      have hv : v.length = d := hlen v (List.mem_cons_self _ _)
      have heq : vsumRows (v :: w :: rest2) = vadd v (vsumRows (w :: rest2)) := rfl
      constructor
      · rw [heq]; exact vadd_length hv hl
      · intro i hi
        rw [heq, vadd_getD hv hl hi, hs i hi]
        simp

/-- The mean of the rows of a non-empty rectangular matrix has the row
dimension, and each coordinate is the coordinate-sum divided by the row
count. -/
theorem meanRows_spec {d : Nat} {embs : List (List ℚ)} (hne : embs ≠ [])
    (hlen : ∀ v ∈ embs, v.length = d) :
    (meanRows embs).length = d ∧
    ∀ i, i < d → (meanRows embs).getD i 0 =
      (embs.map (fun v => v.getD i 0)).sum / (embs.length : ℚ) := by
  obtain ⟨h1, h2⟩ := vsumRows_spec hne hlen
  constructor
  · simp [meanRows, h1]
  · intro i hi
    have hml : (meanRows embs).length = d := by simp [meanRows, h1]
    rw [List.getD_eq_getElem _ _ (by omega)]
    unfold meanRows
    rw [List.getElem_map]
    rw [← List.getD_eq_getElem _ (0 : ℚ) (by omega), h2 i hi]

/-- C5: for every non-empty sequence of usable hashtag texts, the interest
profile is the element-wise arithmetic mean of the vectors the embedding
collaborator returns for those texts (one vector per text, all of dimension
`d`), and the profile's dimension equals `d`. -/
theorem C5_buildProfile_mean (embed : List String → List (List ℚ))
    (texts : List String) (d : Nat) (hne : texts ≠ [])
    (hcount : (embed texts).length = texts.length)
    (hdim : ∀ v ∈ embed texts, v.length = d) :
    (buildProfile embed texts).length = d ∧
    ∀ i, i < d → (buildProfile embed texts).getD i 0 =
      ((embed texts).map (fun v => v.getD i 0)).sum / ((embed texts).length : ℚ) := by
  have hne2 : embed texts ≠ [] := by
    intro h
    rw [h] at hcount
    exact hne (List.eq_nil_of_length_eq_zero hcount.symm)
  exact meanRows_spec hne2 hdim

/-- Witness for C5: a 2-text batch with 2-dimensional embeddings, checked in
dimension and in coordinate 0. -/
theorem C5_witness :
    (buildProfile (fun _ => [[(1:ℚ),2],[3,4]]) ["tech","ai"]).length = 2 ∧
    (buildProfile (fun _ => [[(1:ℚ),2],[3,4]]) ["tech","ai"]).getD 0 0 =
      (((fun _ => [[(1:ℚ),2],[3,4]]) ["tech","ai"]).map (fun v => v.getD 0 0)).sum /
        ((((fun _ => [[(1:ℚ),2],[3,4]]) ["tech","ai"] : List (List ℚ)).length : ℚ)) :=
  ⟨(C5_buildProfile_mean (fun _ => [[(1:ℚ),2],[3,4]]) ["tech","ai"] 2 (by decide) (by decide)
      (by decide)).1,
    (C5_buildProfile_mean (fun _ => [[(1:ℚ),2],[3,4]]) ["tech","ai"] 2 (by decide) (by decide)
      (by decide)).2 0 (by decide)⟩

/-! ### Properties of the relevance ranker -/

/-- A row gets a score exactly when both title and description are present. -/
theorem scoreRow_isSome_iff {c : String → ℚ} {a : Article} :
    (∃ s, scoreRow c a = some s) ↔ (a.title.isSome ∧ a.description.isSome) := by
  rcases a with ⟨t, d, u⟩
  cases t <;> cases d <;> simp [scoreRow]

/-- Scoring a batch of surviving rows loses no row. -/
theorem keep_filterMap_length (c : String → ℚ) :
    ∀ (l : List Article), (∀ a ∈ l, keepArticle a = true) →
      (l.filterMap (scoreRow c)).length = l.length := by
  intro l
  induction l with
  | nil => intro _; rfl
  | cons a t ih =>
    intro h
    have ha := h a (List.mem_cons_self _ _)
    have hs : (scoreRow c a).isSome := by
      rcases a with ⟨t0, d0, u0⟩
      simp only [keepArticle, Bool.and_eq_true, Option.isSome_iff_exists] at ha
      obtain ⟨⟨t1, ht⟩, ⟨d1, hd⟩⟩ := ha
      subst ht hd
      simp [scoreRow]
    obtain ⟨s, hsome⟩ := Option.isSome_iff_exists.mp hs
    simp only [List.filterMap_cons, hsome]
    simp [ih (fun a ha => h a (List.mem_cons_of_mem _ ha))]

/-- The score comparison is transitive. -/
theorem leScore_trans : ∀ (a b c : Scored), leScore a b → leScore b c → leScore a c := by
  intro a b c
  simp only [leScore, decide_eq_true_eq]
  exact le_trans

/-- The score comparison is total. -/
theorem leScore_total : ∀ (a b : Scored), leScore a b || leScore b a := by
  intro a b
  simp only [leScore, Bool.or_eq_true, decide_eq_true_eq]
  exact le_total _ _

/-- Sorting descending permutes the scored rows. -/
theorem sortDesc_perm (rows : List Scored) : (sortDesc rows).Perm rows :=
  (List.reverse_perm _).trans (List.mergeSort_perm rows leScore)

/-- Sorting descending yields a non-increasing score sequence. -/
theorem sortDesc_sorted (rows : List Scored) :
    (sortDesc rows).Pairwise (fun a b => b.score ≤ a.score) := by
  have h := List.sorted_mergeSort leScore_trans leScore_total rows
  unfold sortDesc
  rw [List.pairwise_reverse]
  exact h.imp (by simp [leScore])

/-- C3: for every retrieved batch in which at least one article has both
title and description (the source raises a 500 otherwise), the ranking
succeeds, its output is sorted non-increasing by score, and its length is
exactly the number of input articles with both fields present — no
truncation and no minimum-score cutoff. -/
theorem C3_rank_sorted_full (scoreOf : String → ℚ) (articles : List Article)
    (h : articles.filter keepArticle ≠ []) :
    ∃ rows, rankArticles scoreOf articles = .ok rows ∧
      rows.Pairwise (fun a b => b.score ≤ a.score) ∧
      rows.length = articles.countP keepArticle := by
  have hne : articles ≠ [] := by
    intro he
    rw [he] at h
    exact h rfl
  unfold rankArticles
  rw [if_neg (by simpa [List.isEmpty_iff] using hne),
    if_neg (by simpa [List.isEmpty_iff] using h)]
  refine ⟨_, rfl, sortDesc_sorted _, ?_⟩
  rw [(sortDesc_perm _).length_eq,
    keep_filterMap_length scoreOf _ (fun a ha => (List.mem_filter.mp ha).2),
    List.countP_eq_length_filter]

/-- Witness for C3: a two-article batch where one article lacks a title. -/
theorem C3_witness :
    ∃ rows, rankArticles (fun _ => 0)
        [⟨some "t", some "d", none⟩, ⟨none, some "x", some "u"⟩] = .ok rows ∧
      rows.Pairwise (fun a b => b.score ≤ a.score) ∧
      rows.length = ([⟨some "t", some "d", none⟩,
        (⟨none, some "x", some "u"⟩ : Article)] : List Article).countP keepArticle :=
  C3_rank_sorted_full (fun _ => 0) _ (by decide)

/-- C10: the rows kept by the ranker are exactly the articles with title and
description present (the `url` field plays no role in the decision), and an
article with a `null` url is still scored and appears in the output with
its url passed through unchanged. -/
theorem C10_url_immaterial (scoreOf : String → ℚ) (articles : List Article)
    (rows : List Scored) (hok : rankArticles scoreOf articles = .ok rows) :
    rows.Perm ((articles.filter keepArticle).filterMap (scoreRow scoreOf)) ∧
    (∀ a : Article, (∃ s, scoreRow scoreOf a = some s) ↔
      (a.title.isSome ∧ a.description.isSome)) ∧
    (∀ (a : Article) (s : Scored), a ∈ articles → scoreRow scoreOf a = some s →
      s ∈ rows ∧ s.url = a.url) := by
  have hrows : rows = sortDesc ((articles.filter keepArticle).filterMap (scoreRow scoreOf)) := by
    unfold rankArticles at hok
    split at hok
    · cases hok
    · dsimp only at hok
      split at hok
      · cases hok
      · injection hok with h
        exact h.symm
  refine ⟨?_, fun a => scoreRow_isSome_iff, ?_⟩
  · rw [hrows]
    exact sortDesc_perm _
  · intro a s ha hsr
    have hkeep : keepArticle a = true := by
      rcases a with ⟨t, d, u⟩
      cases t <;> cases d <;> simp_all [scoreRow, keepArticle]
    have hmem : s ∈ (articles.filter keepArticle).filterMap (scoreRow scoreOf) :=
      List.mem_filterMap.mpr ⟨a, List.mem_filter.mpr ⟨ha, hkeep⟩, hsr⟩
    constructor
    · rw [hrows]
      exact ((sortDesc_perm _).mem_iff).mpr hmem
    · rcases a with ⟨t, d, u⟩
      cases t <;> cases d <;> simp_all [scoreRow]
      exact hsr.symm ▸ rfl

/-- Witness for C10: an article whose url is `null` is scored and appears in
the ranked output with a `null` url. -/
theorem C10_witness :
    ((⟨"t", "d", none, 0⟩ : Scored) ∈ ([⟨"t", "d", none, 0⟩] : List Scored)) ∧
    (⟨"t", "d", none, 0⟩ : Scored).url = (⟨some "t", some "d", none⟩ : Article).url :=
  (C10_url_immaterial (fun _ => 0) [⟨some "t", some "d", none⟩] [⟨"t", "d", none, 0⟩]
    (by simp [rankArticles, sortDesc, scoreRow, keepArticle, combinedText])).2.2
    ⟨some "t", some "d", none⟩ ⟨"t", "d", none, 0⟩ (List.mem_singleton.mpr rfl) rfl

/-! ### Properties of hashtag extraction -/

/-- An export entry `{"HashtagName": n}`. -/
def mkHashtagRecord (n : String) : JVal :=
  .obj [("HashtagName", .str n)]

/-- A well-shaped activity export holding the given hashtag names. -/
def mkExport (names : List String) : JVal :=
  .obj [("Your Activity", .obj [("Hashtag", .obj [("HashtagList",
    .arr (names.map mkHashtagRecord))])])]

/-- The `raw_tags` comprehension on a well-shaped record list: it keeps every
record whose name is truthy (non-empty, whitespace-only included), strips it,
and applies no other transformation — no stoplist, no length filter, no
deduplication. -/
theorem extractRawTags_mkRecords (names : List String) :
    extractRawTags (names.map mkHashtagRecord) =
      .ok ((names.filter (fun n => n ≠ "")).map pyStrip) := by
  induction names with
  | nil => rfl
  | cons n rest ih =>
    by_cases hn : n = ""
    · subst hn
      simp only [List.map_cons, extractRawTags, stripTag, mkHashtagRecord]
      simp [pyTruthy, ih]
      rfl
    · simp only [List.map_cons, extractRawTags, stripTag, mkHashtagRecord]
      simp [pyTruthy, hn, ih]
      rfl

/-- When at least one name is non-empty, the whole input stage hands exactly
the stripped truthy names to the embedding model. -/
theorem extractTexts_mkExport (names : List String)
    (hne : names.filter (fun n => n ≠ "") ≠ []) :
    extractTexts (some (mkExport names)) =
      .ok ((names.filter (fun n => n ≠ "")).map pyStrip) := by
  have hnames : names ≠ [] := by
    intro h
    subst h
    exact hne rfl
  have htags := extractRawTags_mkRecords names
  have htruthy : pyTruthy (.arr (names.map mkHashtagRecord)) = true := by
    simp [pyTruthy, List.isEmpty_iff, hnames]
  have hT : (names.filter (fun n => n ≠ "")).map pyStrip ≠ [] := by
    simp only [ne_eq, List.map_eq_nil_iff]
    exact hne
  show (do
      let hl ← extractHashtagList (mkExport names)
      if pyTruthy hl then do
        let hs ← pyIter hl
        let raw_tags ← extractRawTags hs
        if raw_tags = [] then
          Except.error (.http 400 "No usable hashtag texts detected")
        else Except.ok raw_tags
      else Except.error (.http 400 "No hashtags found in TikTok file")) = _
  have h1 : extractHashtagList (mkExport names) =
      .ok (.arr (names.map mkHashtagRecord)) := rfl
  rw [h1]
  show (if pyTruthy (JVal.arr (names.map mkHashtagRecord)) then _ else _) = _
  rw [if_pos htruthy]
  show (do
      let raw_tags ← extractRawTags (names.map mkHashtagRecord)
      if raw_tags = [] then
        Except.error (.http 400 "No usable hashtag texts detected")
      else Except.ok raw_tags) = _
  rw [htags]
  show (if ((names.filter (fun n => n ≠ "")).map pyStrip) = [] then _ else _) = _
  rw [if_neg hT]

/-- C9: the texts embedded for the interest profile are exactly the stripped
truthy hashtag names, in order — no stoplist filtering, no minimum-length
filtering, no deduplication (a name repeated k times appears k times, so it
contributes k terms to the profile mean), and a stoplist tag such as "fyp"
is still among the embedded texts. -/
theorem C9_profile_texts_unfiltered (names : List String) :
    (extractRawTags (names.map mkHashtagRecord) =
      .ok ((names.filter (fun n => n ≠ "")).map pyStrip)) ∧
    (names.filter (fun n => n ≠ "") ≠ [] →
      extractTexts (some (mkExport names)) =
        .ok ((names.filter (fun n => n ≠ "")).map pyStrip)) ∧
    ("fyp" ∈ names → "fyp" ∈ (names.filter (fun n => n ≠ "")).map pyStrip) := by
  refine ⟨extractRawTags_mkRecords names, extractTexts_mkExport names, ?_⟩
  intro hf
  exact List.mem_map.mpr ⟨"fyp", List.mem_filter.mpr ⟨hf, by decide⟩, by decide⟩

/-- Witness for C9: an export with a duplicated stoplist tag; both copies
reach the embedding stage. -/
theorem C9_witness :
    extractTexts (some (mkExport ["fyp", "fyp", "ai"])) =
      .ok (((["fyp", "fyp", "ai"] : List String).filter
        (fun n => n ≠ "")).map pyStrip) ∧
    "fyp" ∈ ((["fyp", "fyp", "ai"] : List String).filter
      (fun n => n ≠ "")).map pyStrip :=
  ⟨(C9_profile_texts_unfiltered ["fyp", "fyp", "ai"]).2.1 (by decide),
    (C9_profile_texts_unfiltered ["fyp", "fyp", "ai"]).2.2 (by decide)⟩

/-- The Scenario C export of the repository's own test suite
(`test_recommend_empty_hashtag_names`): hashtag names `""` and `"   "`. -/
def scenarioCDoc : JVal :=
  .obj [("Your Activity", .obj [("Hashtag", .obj [("HashtagList",
    .arr [.obj [("HashtagName", .str "")], .obj [("HashtagName", .str "   ")]])])])]

/-- C1 (code bug): on the export whose hashtag names are `""` and `"   "`,
the comprehension's filter `if h.get("HashtagName")` keeps the
whitespace-only name (a non-empty string is truthy) and strips it to `""`,
so `raw_tags = [""]` is non-empty: the pipeline does NOT raise the 400
"No usable hashtag texts detected" required by the spec and by the
repository's own test, and the empty text reaches the embedding stage. -/
theorem C1_whitespace_only_tag_not_rejected :
    extractTexts (some scenarioCDoc) = .ok [""] ∧
    extractTexts (some scenarioCDoc) ≠
      .error (.http 400 "No usable hashtag texts detected") := by
  refine ⟨rfl, ?_⟩
  intro h
  rw [show extractTexts (some scenarioCDoc) = .ok [""] from rfl] at h
  exact Except.noConfusion h

/-- Counterexample to C8: `[]` is a valid JSON document, but its top level
is not an object, so `raw.get("Your Activity", {})` raises `AttributeError`
— an unclassified error, not one of the two classified 400s. -/
theorem C8_counterexample :
    extractTexts (some (.arr [])) = .error (.uncaught "AttributeError: get") ∧
    extractTexts (some (.arr [])) ≠ .error (.http 400 "Invalid JSON file") ∧
    extractTexts (some (.arr [])) ≠
      .error (.http 400 "No hashtags found in TikTok file") := by
  refine ⟨rfl, ?_, ?_⟩ <;>
  · intro h
    rw [show extractTexts (some (.arr [])) =
      .error (.uncaught "AttributeError: get") from rfl] at h
    simp at h

/-- C8 (amended): a document `json.loads` rejects yields the 400
"Invalid JSON file"; and on a valid document whose traversed values are
objects, each nested lookup defaults to empty when its key is absent
(`{}` / `{}` / `[]`), ending in the 400 "No hashtags found in TikTok file"
— while a valid document that is not an object at a traversed level
instead raises an unclassified error (see the counterexample). -/
theorem C8_parse_and_defaults (kvs0 kvs1 kvs2 : List (String × JVal)) (l : JVal)
    (h0 : kvs0.lookup "Your Activity" = none)
    (h1 : kvs1.lookup "Hashtag" = none)
    (h2 : kvs2.lookup "HashtagList" = none) :
    extractTexts none = .error (.http 400 "Invalid JSON file") ∧
    extractHashtagList (.obj [("Your Activity",
      .obj [("Hashtag", .obj [("HashtagList", l)])])]) = .ok l ∧
    extractHashtagList (.obj kvs0) = .ok (.arr []) ∧
    extractHashtagList (.obj [("Your Activity", .obj kvs1)]) = .ok (.arr []) ∧
    extractHashtagList (.obj [("Your Activity",
      .obj [("Hashtag", .obj kvs2)])]) = .ok (.arr []) ∧
    extractTexts (some (.obj [])) =
      .error (.http 400 "No hashtags found in TikTok file") := by
  refine ⟨rfl, rfl, ?_, ?_, ?_, rfl⟩
  · have hget : pyGet (.obj kvs0) "Your Activity" (.obj []) = .ok (.obj []) := by
      simp [pyGet, h0]
    unfold extractHashtagList
    rw [hget]
    rfl
  · have hget : pyGet (.obj kvs1) "Hashtag" (.obj []) = .ok (.obj []) := by
      simp [pyGet, h1]
    unfold extractHashtagList
    show (do
      let h ← pyGet (.obj kvs1) "Hashtag" (.obj [])
      pyGet h "HashtagList" (.arr [])) = _
    rw [hget]
    rfl
  · have hget : pyGet (.obj kvs2) "HashtagList" (.arr []) = .ok (.arr []) := by
      simp [pyGet, h2]
    unfold extractHashtagList
    show pyGet (.obj kvs2) "HashtagList" (.arr []) = _
    rw [hget]

/-- Witness for the amended C8 at concrete documents. -/
theorem C8_witness :
    extractTexts none = .error (.http 400 "Invalid JSON file") ∧
    extractHashtagList (.obj [("Your Activity",
      .obj [("Hashtag", .obj [("HashtagList", .null)])])]) = .ok .null ∧
    extractHashtagList (.obj [("Other", .str "x")]) = .ok (.arr []) ∧
    extractHashtagList (.obj [("Your Activity", .obj [])]) = .ok (.arr []) ∧
    extractHashtagList (.obj [("Your Activity",
      .obj [("Hashtag", .obj [])])]) = .ok (.arr []) ∧
    extractTexts (some (.obj [])) =
      .error (.http 400 "No hashtags found in TikTok file") :=
  C8_parse_and_defaults [("Other", .str "x")] [] [] .null rfl rfl rfl
